import Mathlib

/-!
Verification development for the yarpgen expression IR
(`expr.cpp` = src/unnamed/part_000, statement IR header = src/unnamed/part_001).

The definitions below are a shallow embedding of the C++ source.  Parts of
the repository that are not present under src/ (the `IntegralType` /
`IRValue` primitive layer of `type.cpp` / `ir_value.cpp`, and the enum
headers) are modelled from the specification; each such definition carries a
doc comment starting with "Modelled from the spec".  Everything taken from
`expr.cpp` cites the line numbers of src/unnamed/part_000.
-/

namespace Yarpgen

/-- Modelled from the spec (§3.1): the integral type tags, in promotion-rank
order; `type.h` is not under src/.  Missing code: `IntTypeID` enum. -/
inductive IntTypeID
  | BOOL | SCHAR | UCHAR | SHORT | USHORT | INT | UINT | LONG | ULONG | LLONG | ULLONG
deriving DecidableEq, Repr, Fintype

/-- Modelled from the spec (§3.1): the tag order is the promotion rank. -/
def IntTypeID.rank : IntTypeID → Nat
  | .BOOL => 0 | .SCHAR => 1 | .UCHAR => 2 | .SHORT => 3 | .USHORT => 4
  | .INT => 5 | .UINT => 6 | .LONG => 7 | .ULONG => 8 | .LLONG => 9 | .ULLONG => 10

/-- Modelled from the spec (§3.1, Glossary): signedness carried by each tag. -/
def IntTypeID.isSigned : IntTypeID → Bool
  | .SCHAR => true | .SHORT => true | .INT => true | .LONG => true | .LLONG => true
  | _ => false

/-- Modelled from the spec (§3.1): bit-width of each tag. -/
def IntTypeID.bitSize : IntTypeID → Nat
  | .BOOL => 1 | .SCHAR => 8 | .UCHAR => 8 | .SHORT => 16 | .USHORT => 16
  | .INT => 32 | .UINT => 32 | .LONG => 64 | .ULONG => 64 | .LLONG => 64 | .ULLONG => 64

/-- Modelled from the spec (§3.1): representable minimum of each tag. -/
def IntTypeID.minVal (t : IntTypeID) : Int :=
  if t.isSigned then -((2 : Int) ^ (t.bitSize - 1)) else 0

/-- Modelled from the spec (§3.1): representable maximum of each tag. -/
def IntTypeID.maxVal (t : IntTypeID) : Int :=
  if t.isSigned then (2 : Int) ^ (t.bitSize - 1) - 1 else (2 : Int) ^ t.bitSize - 1

/-- Modelled from the spec (§4.1 rule 4): `IntegralType::canRepresentType a b`
holds when type `a` can represent every value of type `b`; `type.cpp` is not
under src/. -/
def IntTypeID.canRepresentType (a b : IntTypeID) : Bool :=
  decide (a.minVal ≤ b.minVal) && decide (b.maxVal ≤ a.maxVal)

/-- Modelled from the spec (§4.1 rule 5): `IntegralType::getCorrUnsigned`,
the unsigned counterpart of a signed tag; `type.cpp` is not under src/. -/
def IntTypeID.getCorrUnsigned : IntTypeID → IntTypeID
  | .SCHAR => .UCHAR | .SHORT => .USHORT | .INT => .UINT
  | .LONG => .ULONG | .LLONG => .ULLONG | t => t

/-- Modelled from the spec (§3.3, §6.1): the UB kinds the evaluator can
attach to a value; `enums.h` is not under src/. -/
inductive UBKind
  | NoUB | SignOvf | SignOvfMin | ZeroDiv | ShiftRhsNeg | ShiftRhsLarge
  | NegShift | OutOfBounds
deriving DecidableEq, Repr

/-- Modelled from the spec (§6.1): two's-complement wrap of an integer into
the representable range of a tag (used by `castToType` and `setValue`). -/
def wrapToType (t : IntTypeID) (n : Int) : Int :=
  let m := (2 : Int) ^ t.bitSize
  let r := n % m
  if t.isSigned && decide ((2 : Int) ^ (t.bitSize - 1) ≤ r) then r - m else r

/-- Modelled from the spec (§2 C1, §6.1): the `IRValue` primitive — a typed
fixed-width integer carrying a UB kind; `ir_value.h/cpp` is not under src/.
`val` is the mathematical value of the stored bit pattern. -/
structure IRValue where
  type : IntTypeID
  val : Int
  ub : UBKind
deriving DecidableEq, Repr

/-- Modelled from the spec (§6.1): `has_ub()`. -/
def IRValue.hasUB (v : IRValue) : Bool := v.ub ≠ UBKind.NoUB

/-- A well-formed `IRValue` stores a value inside its type's range. -/
def IRValue.wf (v : IRValue) : Prop :=
  v.type.minVal ≤ v.val ∧ v.val ≤ v.type.maxVal

instance (v : IRValue) : Decidable v.wf := by unfold IRValue.wf; infer_instance

/-- Modelled from the spec (§6.1): `IRValue(t)` followed by
`setValue(AbsValue\x7bfalse, n\x7d)` — a non-negative magnitude stored into
type `t`, wrapping in the type. -/
def mkAbsIR (t : IntTypeID) (n : Nat) : IRValue :=
  { type := t, val := wrapToType t (Int.ofNat n), ub := UBKind.NoUB }

/-- Modelled from the spec (§6.1): `abs_value()` magnitude component. -/
def IRValue.absNat (v : IRValue) : Nat := v.val.natAbs

/-- Modelled from the spec (§4.2): signed `+` sets SignOvf on overflow,
unsigned wraps with no UB. -/
def addIR (a b : IRValue) : IRValue :=
  let t := a.type
  let s := a.val + b.val
  if t.isSigned then
    if decide (t.minVal ≤ s) && decide (s ≤ t.maxVal) then ⟨t, s, UBKind.NoUB⟩
    else ⟨t, wrapToType t s, UBKind.SignOvf⟩
  else ⟨t, wrapToType t s, UBKind.NoUB⟩

/-- Modelled from the spec (§4.2): signed `-` sets SignOvf on overflow,
unsigned wraps with no UB. -/
def subIR (a b : IRValue) : IRValue :=
  let t := a.type
  let s := a.val - b.val
  if t.isSigned then
    if decide (t.minVal ≤ s) && decide (s ≤ t.maxVal) then ⟨t, s, UBKind.NoUB⟩
    else ⟨t, wrapToType t s, UBKind.SignOvf⟩
  else ⟨t, wrapToType t s, UBKind.NoUB⟩

/-- Modelled from the spec (§4.2): signed `*` sets SignOvfMin on the
`TYPE_MIN`-reaching pattern and SignOvf on other signed overflow; unsigned
wraps with no UB. -/
def mulIR (a b : IRValue) : IRValue :=
  let t := a.type
  let s := a.val * b.val
  if t.isSigned then
    if (decide (a.val = t.minVal) && decide (b.val = -1)) ||
       (decide (a.val = -1) && decide (b.val = t.minVal)) then
      ⟨t, wrapToType t s, UBKind.SignOvfMin⟩
    else if decide (t.minVal ≤ s) && decide (s ≤ t.maxVal) then ⟨t, s, UBKind.NoUB⟩
    else ⟨t, wrapToType t s, UBKind.SignOvf⟩
  else ⟨t, wrapToType t s, UBKind.NoUB⟩

/-- Modelled from the spec (§4.2): `/` sets ZeroDiv on a zero divisor and
SignOvf on `TYPE_MIN / -1`; otherwise C++ truncating division. -/
def divIR (a b : IRValue) : IRValue :=
  let t := a.type
  if decide (b.val = 0) then ⟨t, 0, UBKind.ZeroDiv⟩
  else if t.isSigned && decide (a.val = t.minVal) && decide (b.val = -1) then
    ⟨t, wrapToType t (Int.tdiv a.val b.val), UBKind.SignOvf⟩
  else ⟨t, Int.tdiv a.val b.val, UBKind.NoUB⟩

/-- Modelled from the spec (§4.2): `%` sets ZeroDiv on a zero divisor and
SignOvf on `TYPE_MIN % -1`; otherwise C++ truncating remainder. -/
def modIR (a b : IRValue) : IRValue :=
  let t := a.type
  if decide (b.val = 0) then ⟨t, 0, UBKind.ZeroDiv⟩
  else if t.isSigned && decide (a.val = t.minVal) && decide (b.val = -1) then
    ⟨t, wrapToType t (Int.tmod a.val b.val), UBKind.SignOvf⟩
  else ⟨t, Int.tmod a.val b.val, UBKind.NoUB⟩

/-- Modelled from the spec (§4.2, §4.5 literal semantics): comparisons yield
a BOOL-typed value and never set UB. -/
def cmpIR (p : Int → Int → Bool) (a b : IRValue) : IRValue :=
  ⟨IntTypeID.BOOL, if p a.val b.val then 1 else 0, UBKind.NoUB⟩

/-- Modelled from the spec (§4.2): logical operators on BOOL operands. -/
def logIR (p : Bool → Bool → Bool) (a b : IRValue) : IRValue :=
  ⟨IntTypeID.BOOL, if p (a.val ≠ 0) (b.val ≠ 0) then 1 else 0, UBKind.NoUB⟩

/-- Two's-complement unsigned view of a stored value. -/
def toUnsignedBits (t : IntTypeID) (n : Int) : Nat :=
  (n % (2 : Int) ^ t.bitSize).toNat

/-- Modelled from the spec (§4.2): bitwise operators work on the
two's-complement bit pattern and never set UB. -/
def bitIR (p : Nat → Nat → Nat) (a b : IRValue) : IRValue :=
  let t := a.type
  ⟨t, wrapToType t (Int.ofNat (p (toUnsignedBits t a.val) (toUnsignedBits t b.val))),
   UBKind.NoUB⟩

/-- Modelled from the spec: position of the most-significant set bit
(`findMSB` of `utils.cpp`, not under src/). -/
def msbPos (n : Nat) : Nat := Nat.log2 n

/-- Modelled from the spec (§4.2): UB classification of a shift:
ShiftRhsNeg for a negative amount, ShiftRhsLarge for an amount at least the
bit-width of the (promoted) LHS type, NegShift for a negative signed LHS. -/
def shiftUBKind (lhs rhs : IRValue) : UBKind :=
  if decide (rhs.val < 0) then UBKind.ShiftRhsNeg
  else if decide ((lhs.type.bitSize : Int) ≤ rhs.val) then UBKind.ShiftRhsLarge
  else if decide (lhs.val < 0) then UBKind.NegShift
  else UBKind.NoUB

/-- Modelled from the spec (§4.2): `<<` with the shift UB classification. -/
def shlIR (a b : IRValue) : IRValue :=
  let k := shiftUBKind a b
  if k = UBKind.NoUB then
    ⟨a.type, wrapToType a.type (a.val * (2 : Int) ^ b.val.toNat), UBKind.NoUB⟩
  else ⟨a.type, a.val, k⟩

/-- Modelled from the spec (§4.2): `>>` with the shift UB classification. -/
def shrIR (a b : IRValue) : IRValue :=
  let k := shiftUBKind a b
  if k = UBKind.NoUB then
    ⟨a.type, a.val / (2 : Int) ^ b.val.toNat, UBKind.NoUB⟩
  else ⟨a.type, a.val, k⟩

/-- Modelled from the spec (§3.3, §4.2): the cast primitive `castToType` /
TypeCastExpr evaluation — two's-complement truncation or extension, never
any UB (`ir_value.cpp` and `TypeCastExpr::evaluate` are not under src/). -/
def castIR (v : IRValue) (t : IntTypeID) : IRValue :=
  ⟨t, wrapToType t v.val, UBKind.NoUB⟩

/-- Modelled from the spec (§6.1): `getMax()` of a type as an `IRValue`. -/
def maxIR (t : IntTypeID) : IRValue := ⟨t, t.maxVal, UBKind.NoUB⟩

/-- The binary operator tags of the expression IR (`BinaryExpr`,
spec §3.3; the enum header is not under src/, the set of tags is read off
the switches of part_000 lines 363-392 and 505-563). -/
inductive BinaryOp
  | ADD | SUB | MUL | DIV | MOD
  | LT | GT | LE | GE | EQ | NE
  | LOG_AND | LOG_OR
  | BIT_AND | BIT_OR | BIT_XOR
  | SHL | SHR
deriving DecidableEq, Repr, Fintype

/-- `ArithmeticExpr::integralProm` at the type level (part_000 lines
217-233): a type of rank below INT is promoted to INT, others unchanged. -/
def integralPromID (t : IntTypeID) : IntTypeID :=
  if IntTypeID.INT.rank ≤ t.rank then t else IntTypeID.INT

/-- `BinaryExpr::arithConv` (part_000 lines 400-485) at the type level:
given the (already promoted) operand types, the pair of operand types after
the usual-arithmetic-conversion casts the code inserts; `none` models the
final `ERROR("Unreachable...")`.  Rule numbers follow the code's comments. -/
def arithConvRes (lt rt : IntTypeID) : Option (IntTypeID × IntTypeID) :=
  -- 1.5.1
  if lt = rt then some (lt, rt)
  -- 1.5.2: cast the lower-rank operand to the larger type
  else if lt.isSigned = rt.isSigned then
    if rt.rank < lt.rank then some (lt, lt) else some (rt, rt)
  -- 1.5.3: signed_to_unsigned_conv, tried for (lhs, rhs) then (rhs, lhs)
  else if !lt.isSigned && decide (rt.rank ≤ lt.rank) then some (lt, lt)
  else if !rt.isSigned && decide (lt.rank ≤ rt.rank) then some (rt, rt)
  -- 1.5.4: unsigned_to_signed_conv, tried for (lhs, rhs) then (rhs, lhs)
  else if lt.isSigned && lt.canRepresentType rt then some (lt, lt)
  else if rt.isSigned && rt.canRepresentType lt then some (rt, rt)
  -- 1.5.5: final_conversion, tried for lhs then rhs
  else if lt.isSigned then some (lt.getCorrUnsigned, lt.getCorrUnsigned)
  else if rt.isSigned then some (rt.getCorrUnsigned, rt.getCorrUnsigned)
  else none

/-- The operand types of an arithmetic/relational/bitwise binary node after
`BinaryExpr::propagateType` (part_000 lines 363-382): both operands are
integral-promoted, then `arithConv` runs. -/
def binaryPropagatedTypes (tl tr : IntTypeID) : Option (IntTypeID × IntTypeID) :=
  arithConvRes (integralPromID tl) (integralPromID tr)

/-- Follows the spec's words (§4.1 five-rule usual arithmetic conversions),
written for comparison against the source-derived `arithConvRes`; ties on
rules 3-5 resolve in operand order, left-hand side first. -/
def specUsualArithConv (a b : IntTypeID) : Option IntTypeID :=
  -- rule 1: equal ranks, done
  if a.rank = b.rank then some a
  -- rule 2: same signedness, lower rank converts up
  else if a.isSigned = b.isSigned then
    some (if a.rank < b.rank then b else a)
  -- rule 3: the unsigned operand of rank at least the signed absorbs it
  else if !a.isSigned && decide (b.rank ≤ a.rank) then some a
  else if !b.isSigned && decide (a.rank ≤ b.rank) then some b
  -- rule 4: the signed operand absorbs an unsigned one it can represent
  else if a.isSigned && a.canRepresentType b then some a
  else if b.isSigned && b.canRepresentType a then some b
  -- rule 5: both go to the unsigned counterpart of the signed operand
  else if a.isSigned then some a.getCorrUnsigned
  else if b.isSigned then some b.getCorrUnsigned
  else none

/-- The type categories a `Data`'s type can have in the cast-compatibility
check of `TypeCastExpr::TypeCastExpr` (part_000 lines 179-207). -/
inductive TypeCat
  | intT (t : IntTypeID)
  | arrayT (elem : IntTypeID) (dims : List Nat)
deriving DecidableEq, Repr

def TypeCat.isIntType : TypeCat → Bool
  | .intT _ => true
  | _ => false

def TypeCat.isArrayType : TypeCat → Bool
  | .arrayT _ _ => true
  | _ => false

/-- `TypeCastExpr::TypeCastExpr` (part_000 lines 179-207): the compatibility
check (integer-integer or array-array), then the value computation that is
implemented only for integer scalar variables and aborts otherwise. -/
def typeCastConstruct (baseType : TypeCat) (baseIsScalarVar : Bool)
    (toType : TypeCat) : Except String Unit :=
  if !((baseType.isIntType && toType.isIntType) ||
       (baseType.isArrayType && toType.isArrayType)) then
    Except.error "Cant create TypeCastExpr for types that cant be casted"
  else if baseType.isIntType && baseIsScalarVar then
    Except.ok ()
  else
    Except.error "We can cast only integer scalar variables for now"

def isOkE (e : Except String Unit) : Bool :=
  match e with
  | .ok _ => true
  | .error _ => false

/-- The index `Data` seen by `SubscriptExpr::inBounds` after evaluation: a
scalar variable's current value, or an iterator whose start and end
expressions have been evaluated under `ctx` (part_000 lines 781-803). -/
inductive IdxData
  | scalar (v : IRValue)
  | iter (start stop : IRValue)
deriving DecidableEq, Repr

/-- `SubscriptExpr::inBounds` on the scalar branch (part_000 lines
783-793): builds `zero` and `size` in the index's type and checks
`zero <= idx && idx <= size` (note: inclusive on `size`). -/
def inBoundsScalar (dim : Nat) (v : IRValue) : Bool :=
  let zero := mkAbsIR v.type 0
  let size := mkAbsIR v.type dim
  decide (zero.val ≤ v.val) && decide (v.val ≤ size.val)

/-- `SubscriptExpr::inBounds` (part_000 lines 781-803): scalar indices are
checked directly, iterator indices recurse on the evaluated start and end. -/
def inBounds (dim : Nat) : IdxData → Bool
  | .scalar v => inBoundsScalar dim v
  | .iter s e => inBoundsScalar dim s && inBoundsScalar dim e

/-- The UB code `SubscriptExpr::evaluate` attaches to its result (part_000
lines 826-830): OutOfBounds exactly when `inBounds` fails. -/
def subscriptEvalUB (activeSize : Nat) (d : IdxData) : UBKind :=
  if inBounds activeSize d then UBKind.NoUB else UBKind.OutOfBounds

/-- The values `inBounds` actually checks for a given index. -/
def idxCheckedVals : IdxData → List IRValue
  | .scalar v => [v]
  | .iter s e => [s, e]

/-- The kind of value a subscript node ends up holding. -/
inductive SubValueKind
  | arrayVal
  | scalarVal
deriving DecidableEq, Repr

/-- The dimension handling of `SubscriptExpr::evaluate` (part_000 lines
825-837): `active_size` is `getDimensions().at(active_dim)` — `none` models
the `std::out_of_range` abort of `.at` — and the node's value is the array
when `active_dim < dims.size()`, the element store otherwise. -/
def subscriptActiveResult (dims : List Nat) (activeDim : Nat) :
    Option (Nat × SubValueKind) :=
  match dims.get? activeDim with
  | none => none
  | some sz =>
    some (sz, if activeDim < dims.length then SubValueKind.arrayVal
              else SubValueKind.scalarVal)

/-- `IRValue` dispatch of the operator switch in `BinaryExpr::evaluate`
(part_000 lines 505-563); the arithmetic itself is the spec-modelled
primitive layer. -/
def evalBinOp (op : BinaryOp) (a b : IRValue) : IRValue :=
  match op with
  | .ADD => addIR a b
  | .SUB => subIR a b
  | .MUL => mulIR a b
  | .DIV => divIR a b
  | .MOD => modIR a b
  | .LT => cmpIR (fun x y => decide (x < y)) a b
  | .GT => cmpIR (fun x y => decide (y < x)) a b
  | .LE => cmpIR (fun x y => decide (x ≤ y)) a b
  | .GE => cmpIR (fun x y => decide (y ≤ x)) a b
  | .EQ => cmpIR (fun x y => decide (x = y)) a b
  | .NE => cmpIR (fun x y => decide (x ≠ y)) a b
  | .LOG_AND => logIR (fun x y => x && y) a b
  | .LOG_OR => logIR (fun x y => x || y) a b
  | .BIT_AND => bitIR Nat.land a b
  | .BIT_OR => bitIR Nat.lor a b
  | .BIT_XOR => bitIR Nat.xor a b
  | .SHL => shlIR a b
  | .SHR => shrIR a b

/-- The operator classes of the switch in `BinaryExpr::propagateType`
(part_000 lines 363-396). -/
inductive BinOpClass
  | arith   -- ADD..MOD, LT..NE, BIT_AND/OR/XOR: promote both, then arithConv
  | shift   -- SHL, SHR: promote both independently
  | logical -- LOG_AND, LOG_OR: convert both to bool
deriving DecidableEq, Repr

def binOpClass : BinaryOp → BinOpClass
  | .SHL | .SHR => BinOpClass.shift
  | .LOG_AND | .LOG_OR => BinOpClass.logical
  | _ => BinOpClass.arith

/-- The implicit-cast chain (innermost target first) `propagateType` wraps
around one operand: at most a promotion cast followed by a conversion
cast (part_000 lines 217-233, 359-398, 400-485). -/
def promChain (t : IntTypeID) : List IntTypeID :=
  if IntTypeID.INT.rank ≤ t.rank then [] else [IntTypeID.INT]

/-- `ArithmeticExpr::convToBool` at the type level (part_000 lines
235-246). -/
def boolChain (t : IntTypeID) : List IntTypeID :=
  if t = IntTypeID.BOOL then [] else [IntTypeID.BOOL]

/-- The cast chains `BinaryExpr::propagateType` adds around the two
operands, given the types of their current values (part_000 lines 359-398).
On the unreachable `arithConv` ERROR path no cast is recorded. -/
def binPropChains (op : BinaryOp) (lt rt : IntTypeID) :
    List IntTypeID × List IntTypeID :=
  match binOpClass op with
  | .arith =>
    let lp := integralPromID lt
    let rp := integralPromID rt
    let (lc, rc) := (arithConvRes lp rp).getD (lp, rp)
    (promChain lt ++ (if lc = lp then [] else [lc]),
     promChain rt ++ (if rc = rp then [] else [rc]))
  | .shift => (promChain lt, promChain rt)
  | .logical => (boolChain lt, boolChain rt)

/-- The expression IR (spec §3.3) restricted to the node kinds whose
evaluation the claims exercise; an assignment's destination is a
`ScalarVarUseExpr` referring to the named `Data`. -/
inductive Expr
  | const (v : IRValue)
  | varUse (name : String)
  | castE (e : Expr) (target : IntTypeID) (implicit : Bool)
  | binary (op : BinaryOp) (l r : Expr)
  | assign (toName : String) (fromE : Expr) (taken : Bool)
deriving DecidableEq, Repr

/-- Wrap an expression in a chain of implicit `TypeCastExpr` nodes,
innermost target first. -/
def castChain (e : Expr) : List IntTypeID → Expr
  | [] => e
  | t :: ts => castChain (Expr.castE e t true) ts

/-- Apply the value transformation of a cast chain. -/
def applyCasts (v : IRValue) : List IntTypeID → IRValue
  | [] => v
  | t :: ts => applyCasts (castIR v t) ts

/-- The mutable `Data` store backing the scalar variables: every use
expression refers to an existing `Data` object, so lookup is total. -/
def Store : Type := String → IRValue

def updateStore (s : Store) (n : String) (v : IRValue) : Store :=
  fun m => if m = n then v else s m

/-- The type of the `Data` an expression's `value` field holds (what
`getValue()->getType()` returns to `propagateType`); for a binary node this
is the LHS type after conversion, for an assignment the destination type
(part_000 lines 565-570, 884-887). -/
def typeOfE (s : Store) : Expr → IntTypeID
  | .const v => v.type
  | .varUse n => (s n).type
  | .castE _ t _ => t
  | .binary op l r =>
    let lt := typeOfE s l
    let (lch, _) := binPropChains op lt (typeOfE s r)
    (lch.getLast?).getD lt
  | .assign n _ _ => (s n).type

/-- The evaluator (part_000: `ConstantExpr::evaluate` line 45,
`ScalarVarUseExpr::evaluate` lines 97-104, `BinaryExpr::evaluate` lines
487-572, `AssignmentExpr::evaluate` lines 882-911; `TypeCastExpr::evaluate`
is modelled from the spec §4.2).  It returns the tree after evaluation
(evaluation rewrites the tree: `BinaryExpr::evaluate` re-runs
`propagateType`, whose promotion/conversion casts are folded into the cast
chains here, and `AssignmentExpr::evaluate` wraps its source in a fresh
implicit cast on every call), the computed value, and the store after the
`Data` mutations of taken assignments. -/
def evalE : Expr → Store → Expr × IRValue × Store
  | .const v, s => (.const v, v, s)
  | .varUse n, s => (.varUse n, s n, s)
  | .castE e t imp, s =>
    let ee := evalE e s
    (.castE ee.1 t imp, castIR ee.2.1 t, ee.2.2)
  | .binary op l r, s =>
    let p := binPropChains op (typeOfE s l) (typeOfE s r)
    let el := evalE l s
    let er := evalE r el.2.2
    (.binary op (castChain el.1 p.1) (castChain er.1 p.2),
     evalBinOp op (applyCasts el.2.1 p.1) (applyCasts er.2.1 p.2), er.2.2)
  | .assign n f tk, s =>
    let ef := evalE f s
    let cv := castIR ef.2.1 (s n).type
    (.assign n (.castE ef.1 (s n).type true) tk, cv,
     if tk then updateStore ef.2.2 n cv else ef.2.2)

/-- The destinations of the taken assignment nodes of a tree: the only
`Data` objects `evaluate` may mutate (spec §4.2: "If `taken`, write the
source's current value back into the destination's `Data`"). -/
def takenAssignDests : Expr → List String
  | .const _ => []
  | .varUse _ => []
  | .castE e _ _ => takenAssignDests e
  | .binary _ l r => takenAssignDests l ++ takenAssignDests r
  | .assign n f tk => (if tk then [n] else []) ++ takenAssignDests f

/-- The operator swap of `BinaryExpr::rebuild` (part_000 lines 587-599 and
678-689): ADD and SUB trade places, MUL turns into SUB on SignOvfMin and
into DIV otherwise, DIV and MOD turn into MUL on ZeroDiv and into SUB
otherwise; the remaining operators are left unchanged by the switch. -/
def binarySwapOp (op : BinaryOp) (ub : UBKind) : BinaryOp :=
  match op with
  | .ADD => .SUB
  | .SUB => .ADD
  | .MUL => if ub = UBKind.SignOvfMin then .SUB else .DIV
  | .DIV => if ub = UBKind.ZeroDiv then .MUL else .SUB
  | .MOD => if ub = UBKind.ZeroDiv then .MUL else .SUB
  | o => o

/-- One repair step of `BinaryExpr::rebuild` for a non-shift operator on
already-evaluated scalar operands (part_000 lines 574-599 and 695-704):
evaluate; if the result has UB, swap the operator by `binarySwapOp` and
evaluate again.  Returns the final operator and value. -/
def binaryRebuildStep (op : BinaryOp) (a b : IRValue) : BinaryOp × IRValue :=
  let r := evalBinOp op a b
  if r.hasUB then
    let op2 := binarySwapOp op r.ub
    (op2, evalBinOp op2 a b)
  else (op, r)

/-- The maximal valid shift value of `BinaryExpr::rebuild` (part_000 lines
616-623): the bit size of the LHS type, less the position of the LHS's
most significant set bit for a signed SHL with ShiftRhsLarge. -/
def maxShtVal (op : BinaryOp) (ub : UBKind) (lhsVal : IRValue) : Nat :=
  let w := lhsVal.type.bitSize
  if op = BinaryOp.SHL && lhsVal.type.isSigned && ub = UBKind.ShiftRhsLarge then
    w - msbPos lhsVal.absNat
  else w

/-- The shift branch of `BinaryExpr::rebuild` (part_000 lines 601-676),
for a shift node whose evaluation reported `ub`, with current operand
values `lhsVal`/`rhsVal`, operand subtrees `lhsE`/`rhsE`, and `k` the value
drawn by `getRandValue(0, max_sht_val)`.  All size_t/uint64 arithmetic of
the source is carried out modulo 2^64; the operator itself is not changed
by this branch and does not otherwise enter it (it enters the bound on `k`
through `maxShtVal`).  Returns the new operand subtrees. -/
def shiftRebuild (ub : UBKind) (lhsE rhsE : Expr)
    (lhsVal rhsVal : IRValue) (k : Nat) : Expr × Expr :=
  if ub = UBKind.ShiftRhsLarge || ub = UBKind.ShiftRhsNeg then
    let r := rhsVal.absNat
    let newVal : Nat :=
      if ub = UBKind.ShiftRhsNeg then
        min ((k + r) % 2 ^ 64) rhsVal.type.bitSize
      else
        (r + 2 ^ 64 - k % 2 ^ 64) % 2 ^ 64
    let constVal := Expr.const (mkAbsIR rhsVal.type newVal)
    if ub = UBKind.ShiftRhsNeg then
      (lhsE, Expr.binary BinaryOp.ADD rhsE constVal)
    else
      (lhsE, Expr.binary BinaryOp.SUB rhsE constVal)
  else
    -- UBKind::NegShift: add the maximal value of the LHS type to the LHS
    (Expr.binary BinaryOp.ADD lhsE (Expr.const (maxIR lhsVal.type)), rhsE)

/-- The constant the claim describes for the ShiftRhsNeg repair: `min (k +
r) W` with `W` the bit-width of the promoted LHS type, wrapped in the RHS's
type (written from the claim's words, for comparison with the
source-derived `shiftRebuild`). -/
def claimShiftNegConst (lhsType rhsType : IntTypeID) (k r : Nat) : IRValue :=
  mkAbsIR rhsType (min (k + r) lhsType.bitSize)

/-- `SubscriptExpr::rebuild` after an OutOfBounds evaluation of a scalar
index (part_000 lines 844-861): the index expression is replaced by
`BinaryExpr(MOD, idx, ConstantExpr(active_size in the index's type))`, the
subscript is re-evaluated, and `assert(eval_res->hasUB() && "All of the UB
should be fixed by now")` is checked on the result.  Returns the new index
expression, the re-evaluated index value, the subscript's new UB code, and
the value of the assert condition `eval_res->hasUB()`. -/
def subscriptRebuildScalar (activeSize : Nat) (idxE : Expr) (idxVal : IRValue) :
    Expr × IRValue × UBKind × Bool :=
  let sizeConst := mkAbsIR idxVal.type activeSize
  let newIdxE := Expr.binary BinaryOp.MOD idxE (Expr.const sizeConst)
  let newIdxVal := modIR idxVal sizeConst
  let ub2 := subscriptEvalUB activeSize (IdxData.scalar newIdxVal)
  (newIdxE, newIdxVal, ub2, decide (ub2 ≠ UBKind.NoUB))

/-- A use-expression node: its object identity and the `Data` it wraps. -/
structure UseNode where
  nodeId : Nat
  dataId : Nat
deriving DecidableEq, Repr

/-- The interning table `scalar_var_use_set` together with an allocation
counter standing for `std::make_shared`'s fresh object identity. -/
structure InternState where
  table : List (Nat × UseNode)
  next : Nat
deriving DecidableEq, Repr

def findTab : List (Nat × UseNode) → Nat → Option UseNode
  | [], _ => none
  | (k, n) :: t, d => if k = d then some n else findTab t d

/-- `ScalarVarUseExpr::init` (part_000 lines 74-85): return the node the
table maps the `Data` to, or allocate a fresh node and record it.  The
`ArrayUseExpr::init` and `IterUseExpr::init` tables (lines 110-120,
145-154) follow the same shape. -/
def scalarVarUseInit (d : Nat) (s : InternState) : UseNode × InternState :=
  match findTab s.table d with
  | some n => (n, s)
  | none =>
    let n : UseNode := ⟨s.next, d⟩
    (n, ⟨(d, n) :: s.table, s.next + 1⟩)

/-- The direct `std::make_shared<ScalarVarUseExpr>(var)` constructions of
`ArithmeticExpr::create` (part_000 line 251) and `AssignmentExpr::create`
(line 927): a fresh node wrapping the same `Data`, never recorded in the
interning table. -/
def directScalarVarUse (d : Nat) (s : InternState) : UseNode × InternState :=
  (⟨s.next, d⟩, ⟨s.table, s.next + 1⟩)

/-- The store of underlying `Data` objects, keyed by `Data` identity. -/
def DataStore : Type := Nat → IRValue

/-- Mutating the `Data` through a use node (`ScalarVarUseExpr::setValue`,
part_000 lines 87-95, writes through to the shared `Data`). -/
def setThrough (n : UseNode) (v : IRValue) (st : DataStore) : DataStore :=
  fun d => if d = n.dataId then v else st d

/-- Reading the `Data` through a use node. -/
def readThrough (n : UseNode) (st : DataStore) : IRValue := st n.dataId

/-- A `Data` value as classified by `getKind()` (spec §3.2): a scalar
variable's current value, an array (element type, dimensions and the single
current-values snapshot), or an iterator. -/
inductive DataVal
  | scalar (v : IRValue)
  | arrayD (elem : IntTypeID) (dims : List Nat) (cur : IRValue)
  | iterD (t : IntTypeID) (cur : IRValue)
deriving DecidableEq, Repr

/-- `DataKind` (spec §3.2). -/
inductive DataKind
  | VAR | ARR | ITER
deriving DecidableEq, Repr

def DataVal.kind : DataVal → DataKind
  | .scalar _ => DataKind.VAR
  | .arrayD _ _ _ => DataKind.ARR
  | .iterD _ _ => DataKind.ITER

/-- The type of a `Data` as seen by the cast-compatibility check. -/
def DataVal.typeCat : DataVal → TypeCat
  | .scalar v => TypeCat.intT v.type
  | .arrayD e d _ => TypeCat.arrayT e d
  | .iterD t _ => TypeCat.intT t

def DataVal.isScalarVar : DataVal → Bool
  | .scalar _ => true
  | _ => false

/-- The node kind of the assignment's destination use-expression
(`to->getKind()`, part_000 lines 895-908). -/
inductive UseExprKind
  | scalarVarUse | iterUse | arrayUse
deriving DecidableEq, Repr

/-- The value held by the `TypeCastExpr` the assignment wraps around its
source: for an integer target the cast of the scalar source (part_000
lines 190-202); construction aborts are those of `typeCastConstruct`. -/
def typeCastValue (fromVal : DataVal) (toCat : TypeCat) : Except String DataVal :=
  match typeCastConstruct fromVal.typeCat fromVal.isScalarVar toCat with
  | .error e => Except.error e
  | .ok _ =>
    match fromVal, toCat with
    | .scalar v, .intT t => Except.ok (DataVal.scalar (castIR v t))
    | _, _ => Except.error "We can cast only integer scalar variables for now"

/-- `AssignmentExpr::evaluate` (part_000 lines 882-911) over a named store
of `Data` objects: evaluate the destination (the `Data` the use-expression
wraps), wrap the source in an implicit cast to the destination's type,
evaluate it, abort on a `Data`-kind mismatch, and write the value through
the destination use-expression only when `taken` is set.
`ScalarVarUseExpr::setValue` (lines 87-95) performs the write; its
type-equality ERROR cannot fire because the source was just cast to the
destination's type. -/
def assignmentEvaluate (toName : String) (toKind : UseExprKind)
    (fromVal : DataVal) (taken : Bool) (st : List (String × DataVal)) :
    Except String (DataVal × List (String × DataVal)) :=
  match st.lookup toName with
  | none => Except.error "undefined destination Data"
  | some toEval =>
    match typeCastValue fromVal toEval.typeCat with
    | .error e => Except.error e
    | .ok fromEval =>
      if toEval.kind ≠ fromEval.kind then
        Except.error "We cant assign incompatible data types"
      else if !taken then Except.ok (fromEval, st)
      else
        match toKind with
        | .scalarVarUse =>
          Except.ok (fromEval, st.map (fun p =>
            if p.1 = toName then (toName, fromEval) else p))
        | .iterUse =>
          Except.ok (fromEval, st.map (fun p =>
            if p.1 = toName then (toName, fromEval) else p))
        | .arrayUse =>
          Except.ok (fromEval, st.map (fun p =>
            if p.1 = toName then (toName, fromEval) else p))

end Yarpgen

namespace Yarpgen

/-- C1 (counterexample): the claim requires an index value equal to
`active_size` (here 8) to be flagged OutOfBounds, since 8 lies outside
`[0, 8)`; but `SubscriptExpr::evaluate` leaves the UB code clear, because
`inBounds` compares with `idx <= size` (inclusive upper bound). -/
theorem subscript_oob_claim_false :
    subscriptEvalUB 8 (IdxData.scalar ⟨IntTypeID.INT, 8, UBKind.NoUB⟩) = UBKind.NoUB ∧
    ¬ ((0 : Int) ≤ 8 ∧ (8 : Int) < 8) := by decide

theorem wrapToType_zero : ∀ t : IntTypeID, wrapToType t 0 = 0 := by decide

/-- C1 (amended): `SubscriptExpr::evaluate` sets OutOfBounds if and only if
some checked value — the scalar index current value, or the evaluated start
and end of an iterator index — lies outside the closed interval
`[0, active_size]`, with `active_size` wrapped into the index type. -/
theorem subscript_oob_flag_iff :
    ∀ (dim : Nat) (d : IdxData),
      subscriptEvalUB dim d = UBKind.OutOfBounds ↔
        ∃ v ∈ idxCheckedVals d, v.val < 0 ∨ (mkAbsIR v.type dim).val < v.val := by
  intro dim d
  cases d with
  | scalar v =>
    simp [subscriptEvalUB, inBounds, inBoundsScalar, idxCheckedVals, mkAbsIR,
      wrapToType_zero]
    omega
  | iter a b =>
    simp [subscriptEvalUB, inBounds, inBoundsScalar, idxCheckedVals, mkAbsIR,
      wrapToType_zero]
    omega

/-- C2: evaluating `SubscriptExpr::rebuild` at the failing input (a scalar
int index 9 into a dimension of extent 8, initially OutOfBounds): the index
is indeed replaced by the MOD node `idx % 8` with an int constant, and the
re-evaluation yields value 1 with a clear UB code — so the assert condition
`eval_res->hasUB()` (final component) is FALSE and the assertion
`assert(eval_res->hasUB() && "All of the UB should be fixed by now")`
fires exactly because the repair succeeded; its condition is inverted
relative to its own message. -/
theorem subscript_rebuild_assert_inverted :
    subscriptEvalUB 8 (IdxData.scalar ⟨IntTypeID.INT, 9, UBKind.NoUB⟩) =
      UBKind.OutOfBounds ∧
    subscriptRebuildScalar 8 (Expr.const ⟨IntTypeID.INT, 9, UBKind.NoUB⟩)
        ⟨IntTypeID.INT, 9, UBKind.NoUB⟩ =
      (Expr.binary BinaryOp.MOD (Expr.const ⟨IntTypeID.INT, 9, UBKind.NoUB⟩)
         (Expr.const ⟨IntTypeID.INT, 8, UBKind.NoUB⟩),
       ⟨IntTypeID.INT, 1, UBKind.NoUB⟩, UBKind.NoUB, false) := by decide

set_option maxRecDepth 4096 in
/-- C3: one step of `BinaryExpr::rebuild` swaps the operator per the repair
table (ADD to SUB, SUB to ADD, MUL to SUB on SignOvfMin and to DIV on other
signed overflow, DIV/MOD to MUL on ZeroDiv and to SUB on signed overflow);
concretely, ADD(INT_MAX, 1) evaluates with SignOvf, rebuilds to SUB and
re-evaluates to 2147483646 with a clear UB flag, and DIV(7, 0) evaluates
with ZeroDiv, rebuilds to MUL and re-evaluates to 0 with a clear UB flag. -/
theorem binary_rebuild_swap_table :
    binarySwapOp BinaryOp.ADD UBKind.SignOvf = BinaryOp.SUB ∧
    binarySwapOp BinaryOp.SUB UBKind.SignOvf = BinaryOp.ADD ∧
    binarySwapOp BinaryOp.MUL UBKind.SignOvfMin = BinaryOp.SUB ∧
    binarySwapOp BinaryOp.MUL UBKind.SignOvf = BinaryOp.DIV ∧
    binarySwapOp BinaryOp.DIV UBKind.ZeroDiv = BinaryOp.MUL ∧
    binarySwapOp BinaryOp.MOD UBKind.ZeroDiv = BinaryOp.MUL ∧
    binarySwapOp BinaryOp.DIV UBKind.SignOvf = BinaryOp.SUB ∧
    binarySwapOp BinaryOp.MOD UBKind.SignOvf = BinaryOp.SUB ∧
    (evalBinOp BinaryOp.ADD ⟨IntTypeID.INT, 2147483647, UBKind.NoUB⟩
       ⟨IntTypeID.INT, 1, UBKind.NoUB⟩).ub = UBKind.SignOvf ∧
    binaryRebuildStep BinaryOp.ADD ⟨IntTypeID.INT, 2147483647, UBKind.NoUB⟩
        ⟨IntTypeID.INT, 1, UBKind.NoUB⟩ =
      (BinaryOp.SUB, ⟨IntTypeID.INT, 2147483646, UBKind.NoUB⟩) ∧
    (evalBinOp BinaryOp.DIV ⟨IntTypeID.INT, 7, UBKind.NoUB⟩
       ⟨IntTypeID.INT, 0, UBKind.NoUB⟩).ub = UBKind.ZeroDiv ∧
    binaryRebuildStep BinaryOp.DIV ⟨IntTypeID.INT, 7, UBKind.NoUB⟩
        ⟨IntTypeID.INT, 0, UBKind.NoUB⟩ =
      (BinaryOp.MUL, ⟨IntTypeID.INT, 0, UBKind.NoUB⟩) := by decide

set_option maxRecDepth 8192 in
/-- C4: after `BinaryExpr::propagateType` on an arithmetic, relational, or
bitwise operator, the conversion is total, both operands receive one and
the same type, that type agrees with the five-rule usual-arithmetic-
conversion algorithm of the spec (ties resolved in operand order, left
first), and its rank is at least INT. -/
theorem binary_arith_conv_conformance :
    ∀ tl tr : IntTypeID,
      (binaryPropagatedTypes tl tr).isSome = true ∧
      binaryPropagatedTypes tl tr =
        (specUsualArithConv (integralPromID tl) (integralPromID tr)).map
          (fun t => (t, t)) ∧
      Option.all (fun p => decide (IntTypeID.INT.rank ≤ p.1.rank))
        (binaryPropagatedTypes tl tr) = true := by decide

/-- C5 (counterexample): a SHL whose LHS has type INT (bit-width 32) and
whose RHS has type LLONG (bit-width 64) with value -100 reports
ShiftRhsNeg; with draw k = 0 the source clamps the added constant with the
RHS bit-width, producing 64, while the claim's `min(k + r, W)` with W the
promoted LHS bit-width produces 32. -/
theorem shift_neg_repair_claim_false :
    shiftUBKind ⟨IntTypeID.INT, 5, UBKind.NoUB⟩ ⟨IntTypeID.LLONG, -100, UBKind.NoUB⟩ =
      UBKind.ShiftRhsNeg ∧
    shiftRebuild UBKind.ShiftRhsNeg (Expr.varUse "a") (Expr.varUse "b")
        ⟨IntTypeID.INT, 5, UBKind.NoUB⟩ ⟨IntTypeID.LLONG, -100, UBKind.NoUB⟩ 0 =
      (Expr.varUse "a",
       Expr.binary BinaryOp.ADD (Expr.varUse "b")
         (Expr.const ⟨IntTypeID.LLONG, 64, UBKind.NoUB⟩)) ∧
    claimShiftNegConst IntTypeID.INT IntTypeID.LLONG 0
        (IRValue.absNat ⟨IntTypeID.LLONG, -100, UBKind.NoUB⟩) =
      ⟨IntTypeID.LLONG, 32, UBKind.NoUB⟩ ∧
    (⟨IntTypeID.LLONG, 64, UBKind.NoUB⟩ : IRValue) ≠
      ⟨IntTypeID.LLONG, 32, UBKind.NoUB⟩ := by decide

/-- C5 (amended): for a shift node whose evaluation reports ShiftRhsNeg or
ShiftRhsLarge, with k drawn from `[0, W - m]` (`maxShtVal`, where W is the
promoted LHS bit-width and m the LHS most-significant-bit position only for
signed SHL with ShiftRhsLarge), and r the magnitude of the current RHS, the
repair replaces the RHS by `RHS + min(k + r, W_rhs)` for ShiftRhsNeg —
with W_rhs the bit-width of the RHS type, not of the LHS type — and by
`RHS - (r - k)` for ShiftRhsLarge, the constant wrapping in the RHS type;
for NegShift the LHS is replaced by `LHS + TYPE_MAX` of the LHS type. -/
theorem shift_repair_amended
    (op : BinaryOp) (ub : UBKind) (lhsE rhsE : Expr) (lhsVal rhsVal : IRValue)
    (k : Nat)
    (hwf : rhsVal.wf)
    (hub : ub = shiftUBKind lhsVal rhsVal)
    (hneq : ub ≠ UBKind.NoUB)
    (hk : k ≤ maxShtVal op ub lhsVal) :
    shiftRebuild ub lhsE rhsE lhsVal rhsVal k =
      if ub = UBKind.ShiftRhsNeg then
        (lhsE, Expr.binary BinaryOp.ADD rhsE
           (Expr.const (mkAbsIR rhsVal.type
             (min (k + rhsVal.absNat) rhsVal.type.bitSize))))
      else if ub = UBKind.ShiftRhsLarge then
        (lhsE, Expr.binary BinaryOp.SUB rhsE
           (Expr.const (mkAbsIR rhsVal.type (rhsVal.absNat - k))))
      else
        (Expr.binary BinaryOp.ADD lhsE (Expr.const (maxIR lhsVal.type)), rhsE) := by
  have hbs : ∀ t : IntTypeID, t.bitSize ≤ 64 := by decide
  have hmin : ∀ t : IntTypeID, -(9223372036854775808 : Int) ≤ t.minVal := by decide
  have hmax : ∀ t : IntTypeID, t.maxVal ≤ (18446744073709551615 : Int) := by decide
  have hk64 : k ≤ 64 := by
    refine le_trans hk (le_trans ?_ (hbs lhsVal.type))
    unfold maxShtVal
    split
    · exact Nat.sub_le _ _
    · exact le_rfl
  by_cases hneg : rhsVal.val < 0
  · have hub2 : ub = UBKind.ShiftRhsNeg := by simpa [shiftUBKind, hneg] using hub
    subst hub2
    have hr : rhsVal.absNat ≤ 9223372036854775808 := by
      have h1 := hmin rhsVal.type
      have h2 := hwf.1
      unfold IRValue.absNat
      omega
    have hmod : (k + rhsVal.absNat) % 18446744073709551616 = k + rhsVal.absNat := by
      omega
    simp [shiftRebuild, hmod]
  · by_cases hlarge : (lhsVal.type.bitSize : Int) ≤ rhsVal.val
    · have hub2 : ub = UBKind.ShiftRhsLarge := by
        simpa [shiftUBKind, hneg, hlarge] using hub
      subst hub2
      have h1 : maxShtVal op UBKind.ShiftRhsLarge lhsVal ≤ lhsVal.type.bitSize := by
        unfold maxShtVal
        split
        · exact Nat.sub_le _ _
        · exact le_rfl
      have hkr : k ≤ rhsVal.absNat := by
        unfold IRValue.absNat
        omega
      have hrbound : rhsVal.absNat ≤ 18446744073709551615 := by
        have h2 := hwf.2
        have h3 := hmax rhsVal.type
        unfold IRValue.absNat
        omega
      have hmod2 : (rhsVal.absNat + 18446744073709551616 -
          k % 18446744073709551616) % 18446744073709551616 =
          rhsVal.absNat - k := by
        have hkm : k % 18446744073709551616 = k := by omega
        rw [hkm]
        omega
      simp [shiftRebuild, hmod2]
    · by_cases hlneg : lhsVal.val < 0
      · have hub2 : ub = UBKind.NegShift := by
          simpa [shiftUBKind, hneg, hlarge, hlneg] using hub
        subst hub2
        simp [shiftRebuild]
      · exact absurd (by simpa [shiftUBKind, hneg, hlarge, hlneg] using hub) hneq

/-- C5 (witness): the spec scenario 4 — SHR with uint32 LHS 5 and RHS 40
reports ShiftRhsLarge; with draw k = 2 the RHS is replaced by
`RHS - (40 - 2)`, an effective shift of 2. -/
theorem shift_repair_amended_witness :
    (⟨IntTypeID.UINT, 40, UBKind.NoUB⟩ : IRValue).wf ∧
    UBKind.ShiftRhsLarge =
      shiftUBKind ⟨IntTypeID.UINT, 5, UBKind.NoUB⟩ ⟨IntTypeID.UINT, 40, UBKind.NoUB⟩ ∧
    (2 : Nat) ≤ maxShtVal BinaryOp.SHR UBKind.ShiftRhsLarge
      ⟨IntTypeID.UINT, 5, UBKind.NoUB⟩ ∧
    shiftRebuild UBKind.ShiftRhsLarge (Expr.varUse "a") (Expr.varUse "b")
        ⟨IntTypeID.UINT, 5, UBKind.NoUB⟩ ⟨IntTypeID.UINT, 40, UBKind.NoUB⟩ 2 =
      (Expr.varUse "a",
       Expr.binary BinaryOp.SUB (Expr.varUse "b")
         (Expr.const ⟨IntTypeID.UINT, 38, UBKind.NoUB⟩)) := by
  refine ⟨by decide, by decide, by decide, ?_⟩
  have h := shift_repair_amended BinaryOp.SHR UBKind.ShiftRhsLarge
    (Expr.varUse "a") (Expr.varUse "b") ⟨IntTypeID.UINT, 5, UBKind.NoUB⟩
    ⟨IntTypeID.UINT, 40, UBKind.NoUB⟩ 2 (by decide) (by decide) (by decide)
    (by decide)
  rw [h]
  decide

/-- C6 (counterexample): an array-to-array cast passes the compatibility
check of `TypeCastExpr::TypeCastExpr` but then aborts in the value branch
("We can cast only integer scalar variables for now"), so construction does
NOT succeed for every pair of array types, contrary to the claim. -/
theorem typecast_array_claim_false :
    TypeCat.isArrayType (TypeCat.arrayT IntTypeID.INT [8]) = true ∧
    isOkE (typeCastConstruct (TypeCat.arrayT IntTypeID.INT [8]) false
      (TypeCat.arrayT IntTypeID.INT [8])) = false := by decide

/-- C6 (amended): constructing a `TypeCastExpr` succeeds exactly when the
operand type and the target type are both integral AND the operand value is
a scalar variable; every other pairing (including array-to-array, which
passes only the first check) aborts generation with a diagnostic. -/
theorem typecast_construct_ok_iff :
    ∀ (b : TypeCat) (sc : Bool) (t : TypeCat),
      isOkE (typeCastConstruct b sc t) = (b.isIntType && t.isIntType && sc) := by
  intro b sc t
  cases b <;> cases t <;> cases sc <;> rfl

/-- C7: evaluating `SubscriptExpr::evaluate` at the failing input — a
one-dimensional array `dims = [8]` with the single (innermost) subscript,
`active_dim = 0 = dims.size() - 1`: the code takes the
`active_dim < dims.size()` branch and keeps the array as the value, not a
scalar; moreover the scalar branch is unreachable for any input, because
`getDimensions().at(active_dim)` already throws whenever
`active_dim >= dims.size()`. -/
theorem subscript_innermost_yields_array :
    (subscriptActiveResult [8] 0 = some (8, SubValueKind.arrayVal) ∧
      ([8] : List Nat).length - 1 = 0) ∧
    ∀ (dims : List Nat) (i : Nat),
      Option.all (fun p => decide (p.2 = SubValueKind.arrayVal))
        (subscriptActiveResult dims i) = true := by
  refine ⟨by decide, ?_⟩
  intro dims i
  unfold subscriptActiveResult
  cases h : dims.get? i with
  | none => rfl
  | some sz =>
    have hl : i < dims.length := by
      by_contra hc
      rw [List.get?_eq_none.mpr (by omega)] at h
      exact Option.noConfusion h
    simp [hl]

/-- C8 (counterexample): `AssignmentExpr::evaluate` wraps its source in a
fresh implicit `TypeCastExpr` on every call, so evaluating a tree returns a
structurally different tree, contrary to the claim that evaluation inserts
no new nodes. -/
theorem evaluate_tree_mutation_claim_false :
    (evalE (Expr.assign "x" (Expr.const ⟨IntTypeID.INT, 1, UBKind.NoUB⟩) false)
       (fun _ => ⟨IntTypeID.INT, 0, UBKind.NoUB⟩)).1 ≠
      Expr.assign "x" (Expr.const ⟨IntTypeID.INT, 1, UBKind.NoUB⟩) false := by decide

/-- C8 (amended): the frame part of the claim holds in localized form —
for every tree and every `Data` name that is not the destination of a taken
assignment node of the tree, evaluation leaves that `Data` unchanged, so
all store mutation is confined to the destinations of taken assignments —
but evaluation is not structurally pure: every evaluation of an assignment
rewrites the tree, wrapping the source in a fresh implicit cast to the
destination type. -/
theorem evaluate_frame_and_cast_insertion :
    (∀ (e : Expr) (s : Store) (m : String),
        m ∉ takenAssignDests e → (evalE e s).2.2 m = s m) ∧
    (∀ (n : String) (f : Expr) (tk : Bool) (s : Store),
        (evalE (Expr.assign n f tk) s).1 =
          Expr.assign n (Expr.castE (evalE f s).1 (s n).type true) tk) := by
  constructor
  · intro e
    induction e with
    | const v => intro s m h; rfl
    | varUse n => intro s m h; rfl
    | castE e t imp ih =>
      intro s m h
      simp only [takenAssignDests] at h
      simp only [evalE]
      exact ih s m h
    | binary op l r ihl ihr =>
      intro s m h
      simp only [takenAssignDests, List.mem_append, not_or] at h
      simp only [evalE]
      rw [ihr _ m h.2, ihl _ m h.1]
    | assign n f tk ihf =>
      intro s m h
      simp only [takenAssignDests, List.mem_append, not_or] at h
      simp only [evalE]
      cases tk with
      | false =>
        simp only [Bool.false_eq_true, if_false]
        exact ihf s m h.2
      | true =>
        have hmn : m ≠ n := by
          intro hc
          exact h.1 (by simp [hc])
        simp [updateStore, hmn]
        exact ihf s m h.2
  · intro n f tk s
    rfl

/-- C8 (witness): instantiating the localized frame property at a TAKEN
assignment to "x" under a concrete store: the `Data` named "y" is not a
taken-assignment destination and is left unchanged. -/
theorem evaluate_frame_witness :
    "y" ∉ takenAssignDests
      (Expr.assign "x" (Expr.const ⟨IntTypeID.INT, 1, UBKind.NoUB⟩) true) ∧
    (evalE (Expr.assign "x" (Expr.const ⟨IntTypeID.INT, 1, UBKind.NoUB⟩) true)
       (fun _ => ⟨IntTypeID.INT, 0, UBKind.NoUB⟩)).2.2 "y" =
      (fun _ => ⟨IntTypeID.INT, 0, UBKind.NoUB⟩) "y" :=
  ⟨by decide, evaluate_frame_and_cast_insertion.1 _ _ "y" (by decide)⟩


/-- C9 (counterexample): two call sites obtaining a use-expression for the
same `Data` 0 — one through `ScalarVarUseExpr::init`, one through the
direct `std::make_shared` of `AssignmentExpr::create` — receive different
node objects (though wrapping the same `Data`), contrary to the claim. -/
theorem use_interning_claim_false :
    (scalarVarUseInit 0 ⟨[], 0⟩).1 ≠
      (directScalarVarUse 0 (scalarVarUseInit 0 ⟨[], 0⟩).2).1 ∧
    (scalarVarUseInit 0 ⟨[], 0⟩).1.dataId =
      (directScalarVarUse 0 (scalarVarUseInit 0 ⟨[], 0⟩).2).1.dataId := by decide

/-- C9 (amended): call sites that go through `ScalarVarUseExpr::init`
receive the identical interned node for the same `Data`, and mutating the
`Data` through any use-expression wrapping it is visible through every
other use-expression wrapping the same `Data`, whatever the node
identity. -/
theorem use_interning_amended :
    (∀ (d : Nat) (s : InternState),
        (scalarVarUseInit d (scalarVarUseInit d s).2).1 = (scalarVarUseInit d s).1) ∧
    (∀ (d n1 n2 : Nat) (v : IRValue) (st : DataStore),
        readThrough ⟨n2, d⟩ (setThrough ⟨n1, d⟩ v st) = v) := by
  constructor
  · intro d s
    unfold scalarVarUseInit
    cases h : findTab s.table d with
    | some n => simp [h]
    | none => simp [h, findTab]
  · intro d n1 n2 v st
    simp [readThrough, setThrough]

/-- C10: for `AssignmentExpr::evaluate`, when `taken` is false a successful
evaluation leaves the destination store unchanged and returns the source
value converted (by the implicit cast) to the destination type; any change
of the store implies `taken` was true; and success implies the destination
and converted-source data kinds agree (a mismatch aborts). -/
theorem assignment_untaken_frame_and_kinds :
    ∀ (n : String) (kUse : UseExprKind) (f : DataVal) (tk : Bool)
      (st : List (String × DataVal)) (res : DataVal)
      (st2 : List (String × DataVal)),
      assignmentEvaluate n kUse f tk st = Except.ok (res, st2) →
        (tk = false → st2 = st ∧
          ∃ d, st.lookup n = some d ∧ typeCastValue f d.typeCat = Except.ok res) ∧
        (st2 ≠ st → tk = true) ∧
        (∃ d, st.lookup n = some d ∧ d.kind = res.kind) := by
  intro n kUse f tk st res st2 h
  unfold assignmentEvaluate at h
  split at h
  · exact absurd h (by simp)
  · rename_i d hl
    split at h
    · exact absurd h (by simp)
    · rename_i fe hc
      split at h
      · exact absurd h (by simp)
      · rename_i hk
        rw [not_not] at hk
        split at h
        · rename_i htk
          simp at htk
          simp only [Except.ok.injEq, Prod.mk.injEq] at h
          obtain ⟨hres, hst⟩ := h
          subst hres; subst hst
          exact ⟨fun _ => ⟨rfl, d, hl, hc⟩, fun hne => absurd rfl hne,
            d, hl, hk⟩
        · rename_i htk
          simp at htk
          cases kUse <;>
            simp only [Except.ok.injEq, Prod.mk.injEq] at h <;>
            obtain ⟨hres, hst⟩ := h <;> subst hres <;>
            exact ⟨fun hf => absurd htk (by simp [hf]), fun _ => htk,
              d, hl, hk⟩

/-- C10 (witness): an untaken assignment of a SCHAR scalar 5 to an INT
destination returns the INT-converted value 5 and leaves the store
untouched. -/
theorem assignment_untaken_witness :
    assignmentEvaluate "x" UseExprKind.scalarVarUse
        (DataVal.scalar ⟨IntTypeID.SCHAR, 5, UBKind.NoUB⟩) false
        [("x", DataVal.scalar ⟨IntTypeID.INT, 0, UBKind.NoUB⟩)] =
      Except.ok (DataVal.scalar ⟨IntTypeID.INT, 5, UBKind.NoUB⟩,
        [("x", DataVal.scalar ⟨IntTypeID.INT, 0, UBKind.NoUB⟩)]) ∧
    ([("x", DataVal.scalar ⟨IntTypeID.INT, 0, UBKind.NoUB⟩)] =
      [("x", DataVal.scalar ⟨IntTypeID.INT, 0, UBKind.NoUB⟩)] ∧
      ∃ d, List.lookup "x"
          [("x", DataVal.scalar ⟨IntTypeID.INT, 0, UBKind.NoUB⟩)] = some d ∧
        typeCastValue (DataVal.scalar ⟨IntTypeID.SCHAR, 5, UBKind.NoUB⟩)
            d.typeCat =
          Except.ok (DataVal.scalar ⟨IntTypeID.INT, 5, UBKind.NoUB⟩)) :=
  ⟨by rfl,
   (assignment_untaken_frame_and_kinds "x" UseExprKind.scalarVarUse
      (DataVal.scalar ⟨IntTypeID.SCHAR, 5, UBKind.NoUB⟩) false
      [("x", DataVal.scalar ⟨IntTypeID.INT, 0, UBKind.NoUB⟩)]
      (DataVal.scalar ⟨IntTypeID.INT, 5, UBKind.NoUB⟩)
      [("x", DataVal.scalar ⟨IntTypeID.INT, 0, UBKind.NoUB⟩)]
      (by rfl)).1 rfl⟩

end Yarpgen
